import Mathlib

/-!
Verification of the lungmask command-line pipeline (lungmask/__main__.py):
the mask-application / series-reconstruction branch and the single-volume
writer branch of the function main.

Shallow embedding conventions:
* pydicom datasets are records (structure Dataset) carrying the fields the
  code touches plus the fields it leaves alone;
* DICOM UIDs are lists of dot-separated numeric components (type Uid);
* numpy 2-D pixel arrays are lists of rows of integers;
* a Python exception that aborts the run is an explicit error value;
* the fresh-suffix source used by the UID generator is threaded in as a
  function from the call number to the suffix produced by that call.
-/

namespace Lungmask

/-- A DICOM UID, as its list of dot-separated numeric components. -/
abbrev Uid := List Nat

/-- Modelled from the spec: utils.generate_instance_UID is not part of the
visible source (lungmask/utils.py is absent).  Per spec section 4.1 it takes an
existing identifier, keeps its organizational-root prefix (the dotted segments
before the final generated suffix) and appends a freshly generated
collision-resistant suffix.  The suffix produced by each call is supplied
through the argument "fresh". -/
def generate_instance_UID (uid : Uid) (fresh : Nat) : Uid :=
  uid.dropLast ++ [fresh]

/-- Rendering of a Uid back to its dotted-string form (pydicom UIDs are str
subclasses, so the code concatenates them into the series description). -/
def uidToString (uid : Uid) : String :=
  String.intercalate "." (uid.map toString)

/-- One pydicom dataset as read by pyd.dcmread: the fields the series branch
of main rewrites, plus the fields it leaves untouched (patient and study
identity and all remaining tags, collected in otherTags). -/
structure Dataset where
  SOPInstanceUID : Uid
  SeriesInstanceUID : Uid
  SeriesDescription : String
  WindowCenter : Int
  WindowWidth : Int
  PatientID : String
  StudyInstanceUID : Uid
  otherTags : List (String × String)
  pixel_array : List (List Int)
deriving DecidableEq, Inhabited

/-- Embedding of numpy's np.where(mask_array > 0, input_array, 0) on 2-D
arrays of equal shape (elementwise select, line 161 of __main__.py). -/
def np_where_pos (mask_array input_array : List (List Int)) : List (List Int) :=
  List.zipWith
    (fun mrow irow => List.zipWith (fun mv iv => if 0 < mv then iv else 0) mrow irow)
    mask_array input_array

/-- Element of a 2-D array at row r, column c, when both are in range. -/
def sample? (a : List (List Int)) (r c : Nat) : Option Int :=
  (a[r]?).bind (fun row => row[c]?)

/-- Embedding of math.trunc(math.log10(n - 1)) + 1 (line 139 of __main__.py),
the zero-padding width for output filenames, where n is the number of slice
files.  math.log10 raises ValueError (math domain error) when its argument is
not positive, which happens exactly when n <= 1; the exception is modelled as
none.  For n >= 2 the real number trunc(log10(n-1)) equals Nat.log 10 (n-1). -/
def pad_needed (n : Nat) : Option Nat :=
  if n ≤ 1 then none else some (Nat.log 10 (n - 1) + 1)

/-- Decimal digit d as a character (codepoint 48 + d). -/
def natDigitChar (d : Nat) : Char :=
  Char.ofNat (48 + d)

/-- Decimal digits of n, most significant first, as Python's str(n) writes
them (str(0) is "0"). -/
def natDigits (n : Nat) : List Nat :=
  if n = 0 then [0] else (Nat.digits 10 n).reverse

/-- Character list of Python's str(n) for a natural number n. -/
def natChars (n : Nat) : List Char :=
  (natDigits n).map natDigitChar

/-- Embedding of Python's str.zfill(w): pad on the left with character 0 up to
width w (no-op when the string is already at least that long). -/
def zfill (w : Nat) (s : List Char) : List Char :=
  List.replicate (w - s.length) '0' ++ s

/-- Output filename for slice index ind at padding width pad (line 164):
'lung_masked_' + str(ind).zfill(pad_needed) + '.dcm'. -/
def slice_filename (pad ind : Nat) : String :=
  "lung_masked_" ++ String.mk (zfill pad (natChars ind)) ++ ".dcm"

/-- One output file written by ds.save_as: its full path and the dataset
state at the moment of the write. -/
structure OutFile where
  name : String
  ds : Dataset
deriving DecidableEq, Inhabited

/-- Exceptions that can abort the series branch: the ValueError raised by
math.log10 on a non-positive argument, and the IndexError raised by
result[ind] when the mask has fewer slices than the file list. -/
inductive RunError where
  | pad_domain_error
  | mask_index_error
deriving DecidableEq

/-- Embedding of the per-slice loop of the series branch (lines 143-164 of
__main__.py).  Arguments ind, seriesUID and call are the loop state: the
current index, the value of the variable new_series_instance_UID (empty list
standing for the initial empty string) and the number of
generate_instance_UID calls made so far.  Returns the files written and,
when an iteration raises, the exception (files written by earlier iterations
are kept, matching the absence of rollback). -/
def apply_mask_loop (out_dir : String) (fresh : Nat → Nat) (pad : Nat)
    (result : List (List (List Int))) :
    List Dataset → Nat → Uid → Nat → List OutFile × Option RunError
  | [], _, _, _ => ([], none)
  | ds :: rest, ind, seriesUID, call =>
    match result[ind]? with
    | none => ([], some RunError.mask_index_error)
    | some mask_array =>
      let genSeries := seriesUID.isEmpty
      let seriesUID1 :=
        if genSeries then generate_instance_UID ds.SeriesInstanceUID (fresh call)
        else seriesUID
      let call1 := if genSeries then call + 1 else call
      let ds1 : Dataset :=
        { ds with
          SOPInstanceUID := generate_instance_UID ds.SOPInstanceUID (fresh call1)
          SeriesDescription := "Lung segmented on series " ++ uidToString ds.SeriesInstanceUID
          SeriesInstanceUID := seriesUID1
          WindowCenter := -700
          WindowWidth := 700
          pixel_array := np_where_pos mask_array ds.pixel_array }
      let rec_out := apply_mask_loop out_dir fresh pad result rest (ind + 1) seriesUID1 (call1 + 1)
      ({ name := out_dir ++ "/" ++ slice_filename pad ind, ds := ds1 } :: rec_out.1, rec_out.2)

/-- Embedding of the whole series branch of main (lines 132-166): compute the
padding width from the number of slice files, then run the per-slice loop
starting with an empty new_series_instance_UID and zero generator calls. -/
def apply_mask_run (out_dir : String) (fresh : Nat → Nat)
    (volume_file_list : List Dataset) (result : List (List (List Int))) :
    List OutFile × Option RunError :=
  match pad_needed volume_file_list.length with
  | none => ([], some RunError.pad_domain_error)
  | some pad => apply_mask_loop out_dir fresh pad result volume_file_list 0 [] 0

/-- Spatial frame of a SimpleITK image: origin, spacing and direction.  The
pipeline only ever copies these wholesale, so their payload type is a
parameter. -/
structure Frame (α : Type) where
  origin : α
  spacing : α
  direction : α
deriving DecidableEq, Inhabited

/-- A SimpleITK image: spatial frame, metadata dictionary (ordered key/value
list with unique keys maintained by setKV) and voxel payload. -/
structure Image (α : Type) where
  frame : Frame α
  meta : List (String × String)
  pixels : List (List (List Int))
deriving DecidableEq, Inhabited

/-- Update-or-append for the metadata dictionary. -/
def setKV : List (String × String) → String → String → List (String × String)
  | [], k, v => [(k, v)]
  | (k0, v0) :: rest, k, v =>
    if k0 = k then (k0, v) :: rest else (k0, v0) :: setKV rest k v

/-- sitk.GetImageFromArray: a fresh image holding the array, with a default
spatial frame and no metadata. -/
def GetImageFromArray {α : Type} (default_frame : Frame α)
    (arr : List (List (List Int))) : Image α :=
  { frame := default_frame, meta := [], pixels := arr }

/-- Image.CopyInformation: copy the spatial frame (origin, spacing,
direction) from src, leaving pixels and metadata alone. -/
def CopyInformation {α : Type} (dst src : Image α) : Image α :=
  { dst with frame := src.frame }

/-- Image.SetMetaData. -/
def SetMetaData {α : Type} (img : Image α) (key value : String) : Image α :=
  { img with meta := setKV img.meta key value }

/-- Image.GetMetaDataKeys. -/
def GetMetaDataKeys {α : Type} (img : Image α) : List String :=
  img.meta.map Prod.fst

/-- Image.GetMetaData (none when the key is absent). -/
def GetMetaData {α : Type} (img : Image α) (key : String) : Option String :=
  (img.meta.find? (fun kv => kv.1 = key)).map Prod.snd

/-- Modelled from the spec: utils.get_DICOM_tags_to_keep is not part of the
visible source.  Per spec section 4.2 it is a fixed, hardcoded allow-list of
patient-identity, study-identity and acquisition-context DICOM tags (patient
name, patient ID, study instance identifier, study date, modality are the
enumerated examples); series-identity and SOP-identity keys are excluded. -/
def get_DICOM_tags_to_keep : List String :=
  ["0010|0010", "0010|0020", "0020|000d", "0008|0020", "0008|0060"]

/-- The for-loop over the input's metadata keys (lines 181-183): copy each
key the allow-list accepts, with its value on the input image, onto the
accumulated output image. -/
def copy_tags_fold {α : Type} (input_image : Image α) (keys : List String)
    (acc : Image α) : Image α :=
  keys.foldl
    (fun acc key =>
      if key ∈ get_DICOM_tags_to_keep then
        SetMetaData acc key ((GetMetaData input_image key).getD "")
      else acc)
    acc

/-- Embedding of the single-volume branch of main (lines 168-193): build the
output image from the mask array, copy the input's spatial frame onto it
unconditionally, and, only when keepmetadata is set, copy the allow-listed
tags verbatim and set the three fixed display tags (series description
0008|103e, window center 0028|1050, window width 0028|1051). -/
def single_volume_out {α : Type} (default_frame : Frame α) (input_image : Image α)
    (result : List (List (List Int))) (keepmetadata : Bool) : Image α :=
  let result_out := GetImageFromArray default_frame result
  let result_out := CopyInformation result_out input_image
  if keepmetadata then
    let result_out := copy_tags_fold input_image (GetMetaDataKeys input_image) result_out
    let result_out := SetMetaData result_out "0008|103e" "Created with lungmask"
    let result_out := SetMetaData result_out "0028|1050" "1"
    SetMetaData result_out "0028|1051" "2"
  else
    result_out

/-- Command-line arguments relevant to the output pipeline. -/
structure Args where
  applymask : Bool
  removemetadata : Bool
  output : String

/-- Observable outcome of one main invocation: how many times the inference
engine was called, whether logger.error was called, the process exit status,
and the data written to disk by whichever branch ran. -/
structure MainTrace (α : Type) where
  infer_calls : Nat
  error_logged : Bool
  exit_code : Nat
  series_files : List OutFile
  single_output : Option (Image α)
deriving DecidableEq

/-- Embedding of main (lines 89-193): the applymask precondition check on the
output directory, then inference, then exactly one of the two output
branches.  output_isdir models os.path.isdir(args.output); volume_file_list
models the datasets behind utils.get_filepath_list_from_image; infer models
the LMInferer collaborator.  On the precondition failure main calls
logger.error and then sys.exit() with no argument, which terminates the
process with exit status 0.  An uncaught exception in the series branch
terminates with status 1. -/
def main_run {α : Type} (default_frame : Frame α) (args : Args) (output_isdir : Bool)
    (input_image : Image α) (volume_file_list : List Dataset)
    (infer : Image α → List (List (List Int))) (fresh : Nat → Nat) : MainTrace α :=
  if args.applymask && !output_isdir then
    { infer_calls := 0, error_logged := true, exit_code := 0,
      series_files := [], single_output := none }
  else
    let keepmetadata := !args.removemetadata
    let result := infer input_image
    if args.applymask then
      let run := apply_mask_run args.output fresh volume_file_list result
      { infer_calls := 1, error_logged := false,
        exit_code := match run.2 with | none => 0 | some _ => 1,
        series_files := run.1, single_output := none }
    else
      { infer_calls := 1, error_logged := false, exit_code := 0,
        series_files := [],
        single_output := some (single_volume_out default_frame input_image result keepmetadata) }

/-! Characterization of the series branch. -/

/-- The dataset state saved for one slice: the original dataset with the five
fields the loop rewrites replaced. -/
def masked_ds (ds : Dataset) (mask_array : List (List Int)) (seriesUID : Uid)
    (sop_fresh : Nat) : Dataset :=
  { ds with
    SOPInstanceUID := generate_instance_UID ds.SOPInstanceUID sop_fresh
    SeriesDescription := "Lung segmented on series " ++ uidToString ds.SeriesInstanceUID
    SeriesInstanceUID := seriesUID
    WindowCenter := -700
    WindowWidth := 700
    pixel_array := np_where_pos mask_array ds.pixel_array }

/-- The file a successful series run writes for slice index k. -/
def expected_out (out_dir : String) (fresh : Nat → Nat) (slices : List Dataset)
    (result : List (List (List Int))) (k : Nat) : OutFile :=
  { name := out_dir ++ "/" ++ slice_filename (Nat.log 10 (slices.length - 1) + 1) k,
    ds := masked_ds (slices.getD k default) (result.getD k [])
      (generate_instance_UID ((slices.getD 0 default).SeriesInstanceUID) (fresh 0))
      (fresh (k + 1)) }

lemma generate_instance_UID_ne_nil (uid : Uid) (n : Nat) :
    generate_instance_UID uid n ≠ [] := by
  simp [generate_instance_UID]

lemma generate_instance_UID_ne_self (uid : Uid) (n : Nat) (h : n ∉ uid) :
    generate_instance_UID uid n ≠ uid := by
  intro heq
  exact h (heq ▸ (List.mem_append.2 (Or.inr (List.mem_singleton.2 rfl))))

lemma append_singleton_inj {l₁ l₂ : List Nat} {a b : Nat}
    (h : l₁ ++ [a] = l₂ ++ [b]) : a = b := by
  have h' := congrArg List.reverse h
  simp only [List.reverse_append, List.reverse_cons, List.reverse_nil,
    List.nil_append, List.singleton_append] at h'
  exact (List.cons.injEq _ _ _ _ ▸ h').1

lemma generate_instance_UID_inj_fresh {u₁ u₂ : Uid} {n₁ n₂ : Nat}
    (h : generate_instance_UID u₁ n₁ = generate_instance_UID u₂ n₂) : n₁ = n₂ :=
  append_singleton_inj h

lemma apply_mask_loop_spec (out_dir : String) (fresh : Nat → Nat) (pad : Nat)
    (result : List (List (List Int))) (slices : List Dataset) :
    ∀ (ind : Nat) (su : Uid) (call : Nat), su ≠ [] →
      (∀ k, k < slices.length → ind + k < result.length) →
      apply_mask_loop out_dir fresh pad result slices ind su call =
        ((List.range slices.length).map (fun k =>
          { name := out_dir ++ "/" ++ slice_filename pad (ind + k),
            ds := masked_ds (slices.getD k default) (result.getD (ind + k) []) su
              (fresh (call + k)) }),
         none) := by
  induction slices with
  | nil => intro ind su call hsu hcov; simp [apply_mask_loop]
  | cons ds rest ih =>
    intro ind su call hsu hcov
    obtain ⟨a, t, rfl⟩ : ∃ a t, su = a :: t := by
      cases su with
      | nil => exact absurd rfl hsu
      | cons a t => exact ⟨a, t, rfl⟩
    have hind : ind < result.length := by
      have := hcov 0 (by simp); simpa using this
    have hres : result[ind]? = some (result.getD ind []) := by
      rw [List.getD_eq_getElem?_getD, List.getElem?_eq_getElem hind]; rfl
    have ihr := ih (ind + 1) (a :: t) (call + 1) (by simp)
      (fun k hk => by
        have := hcov (k + 1) (by simpa using Nat.succ_lt_succ hk); omega)
    simp only [apply_mask_loop, hres, List.isEmpty_cons, Bool.false_eq_true, if_false, ihr]
    rw [List.length_cons, List.range_succ_eq_map, List.map_cons, List.map_map]
    refine congrArg₂ Prod.mk (congrArg₂ List.cons ?_ ?_) rfl
    · simp [masked_ds]
    · apply List.map_congr_left
      intro k _
      simp only [Function.comp_apply, List.getD_cons_succ, Nat.succ_eq_add_one]
      have e1 : ind + 1 + k = ind + (k + 1) := by omega
      have e2 : call + 1 + k = call + (k + 1) := by omega
      rw [e1, e2]

lemma apply_mask_run_spec (out_dir : String) (fresh : Nat → Nat)
    (slices : List Dataset) (result : List (List (List Int)))
    (h2 : 2 ≤ slices.length) (hcov : slices.length ≤ result.length) :
    apply_mask_run out_dir fresh slices result =
      ((List.range slices.length).map (expected_out out_dir fresh slices result),
       none) := by
  obtain ⟨d0, rest, rfl⟩ : ∃ d0 rest, slices = d0 :: rest := by
    cases slices with
    | nil => simp at h2
    | cons d0 rest => exact ⟨d0, rest, rfl⟩
  have hlen : ¬ (d0 :: rest).length ≤ 1 := by
    simp only [List.length_cons] at h2 ⊢; omega
  have h0 : (0 : Nat) < result.length := by
    simp only [List.length_cons] at h2 hcov; omega
  have hres : result[0]? = some (result.getD 0 []) := by
    rw [List.getD_eq_getElem?_getD, List.getElem?_eq_getElem h0]; rfl
  have hloop := apply_mask_loop_spec out_dir fresh (Nat.log 10 ((d0 :: rest).length - 1) + 1)
    result rest (0 + 1) (generate_instance_UID d0.SeriesInstanceUID (fresh 0)) (0 + 1 + 1)
    (generate_instance_UID_ne_nil _ _)
    (fun k hk => by simp only [List.length_cons] at hcov; omega)
  simp only [apply_mask_run, pad_needed, hlen, if_false]
  simp only [apply_mask_loop, hres, List.isEmpty_nil, if_true, hloop]
  rw [List.length_cons, List.range_succ_eq_map, List.map_cons, List.map_map]
  refine congrArg₂ Prod.mk (congrArg₂ List.cons ?_ ?_) rfl
  · simp [expected_out, masked_ds]
  · apply List.map_congr_left
    intro k _
    simp only [Function.comp_apply, Nat.succ_eq_add_one, expected_out,
      List.getD_cons_succ, List.getD_cons_zero]
    have e1 : 0 + 1 + k = k + 1 := by omega
    have e2 : 0 + 1 + 1 + k = k + 1 + 1 := by omega
    rw [e1, e2]
    simp only [List.length_cons, Nat.add_sub_cancel]

lemma apply_mask_loop_cov (out_dir : String) (fresh : Nat → Nat) (pad : Nat)
    (result : List (List (List Int))) (slices : List Dataset) :
    ∀ (ind : Nat) (su : Uid) (call : Nat) (outs : List OutFile),
      apply_mask_loop out_dir fresh pad result slices ind su call = (outs, none) →
      ∀ k, k < slices.length → ind + k < result.length := by
  induction slices with
  | nil => intro ind su call outs _ k hk; simp at hk
  | cons ds rest ih =>
    intro ind su call outs h k hk
    cases hres : result[ind]? with
    | none => simp [apply_mask_loop, hres] at h
    | some m =>
      have hind : ind < result.length := by
        by_contra h'
        rw [List.getElem?_eq_none (by omega)] at hres
        cases hres
      simp only [apply_mask_loop, hres] at h
      have hrec :
          apply_mask_loop out_dir fresh pad result rest (ind + 1)
              (if su.isEmpty then generate_instance_UID ds.SeriesInstanceUID (fresh call) else su)
              ((if su.isEmpty then call + 1 else call) + 1) =
            (( apply_mask_loop out_dir fresh pad result rest (ind + 1)
                (if su.isEmpty then generate_instance_UID ds.SeriesInstanceUID (fresh call) else su)
                ((if su.isEmpty then call + 1 else call) + 1)).1, none) := by
        have hsnd := congrArg Prod.snd h
        simp only at hsnd
        exact Prod.ext rfl hsnd
      cases k with
      | zero => simpa using hind
      | succ k' =>
        have := ih (ind + 1) _ _ _ hrec k' (by simpa using Nat.lt_of_succ_lt_succ hk)
        omega

lemma apply_mask_run_inv (out_dir : String) (fresh : Nat → Nat)
    (slices : List Dataset) (result : List (List (List Int))) (outs : List OutFile)
    (h : apply_mask_run out_dir fresh slices result = (outs, none)) :
    2 ≤ slices.length ∧ slices.length ≤ result.length ∧
      outs = (List.range slices.length).map (expected_out out_dir fresh slices result) := by
  have h2 : 2 ≤ slices.length := by
    by_contra h'
    have hle : slices.length ≤ 1 := by omega
    simp [apply_mask_run, pad_needed, hle] at h
  have hloop : apply_mask_loop out_dir fresh (Nat.log 10 (slices.length - 1) + 1)
      result slices 0 [] 0 = (outs, none) := by
    have hlen : ¬ slices.length ≤ 1 := by omega
    simpa [apply_mask_run, pad_needed, hlen] using h
  have hcov : slices.length ≤ result.length := by
    have := apply_mask_loop_cov out_dir fresh _ result slices 0 [] 0 outs hloop
      (slices.length - 1) (by omega)
    omega
  refine ⟨h2, hcov, ?_⟩
  have hspec := apply_mask_run_spec out_dir fresh slices result h2 hcov
  rw [hspec] at h
  exact (Prod.ext_iff.mp h).1.symm

lemma getD_range_map {β : Type} [Inhabited β] (f : Nat → β) (n i : Nat) (h : i < n) :
    ((List.range n).map f).getD i default = f i := by
  rw [List.getD_eq_getElem?_getD, List.getElem?_map, List.getElem?_range h]
  rfl

lemma sample?_np_where {m p : List (List Int)} {r c : Nat} {mv pv : Int}
    (hm : sample? m r c = some mv) (hp : sample? p r c = some pv) :
    sample? (np_where_pos m p) r c = some (if 0 < mv then pv else 0) := by
  unfold sample? at hm hp ⊢
  unfold np_where_pos
  rw [List.getElem?_zipWith]
  cases hmr : m[r]? with
  | none => simp [hmr] at hm
  | some mrow =>
    cases hpr : p[r]? with
    | none => simp [hpr] at hp
    | some prow =>
      simp only [hmr] at hm
      simp only [hpr] at hp
      simp only [Option.some_bind] at hm hp
      simp only [hmr, hpr, Option.some_bind]
      rw [List.getElem?_zipWith, hm, hp]

/-! Concrete fixtures used by witness theorems. -/

def wds0 : Dataset :=
  { SOPInstanceUID := [1, 2, 840, 10], SeriesInstanceUID := [1, 2, 840, 7],
    SeriesDescription := "orig", WindowCenter := 40, WindowWidth := 400,
    PatientID := "PAT-1", StudyInstanceUID := [1, 2, 840, 5],
    otherTags := [("0008|0020", "20200101")],
    pixel_array := [[-1000, 5], [30, -50]] }

def wds1 : Dataset :=
  { wds0 with SOPInstanceUID := [1, 2, 840, 11], pixel_array := [[1, 2], [3, 4]] }

def wmask0 : List (List Int) := [[0, 1], [2, 0]]

def wresult : List (List (List Int)) := [wmask0, [[1, 0], [0, 3]]]

def wfresh : Nat → Nat := fun k => 90000 + k

def wframe : Frame Nat := { origin := 1, spacing := 2, direction := 3 }

def wframe0 : Frame Nat := { origin := 0, spacing := 0, direction := 0 }

def wimage : Image Nat :=
  { frame := wframe,
    meta := [("0010|0010", "Doe^John"), ("0008|103e", "CT chest"),
             ("0010|0020", "42"), ("9999|0001", "junk")],
    pixels := [] }

/-! Claim theorems for the series branch. -/

/-- C1: In series-reconstruction mode, the pixel value written to output
slice i at every sample position equals the original slice's intensity there
when the mask value is positive and equals zero when the mask value is zero:
an exact elementwise select (np.where(mask_array > 0, input_array, 0)), not
a multiply. -/
theorem claim_C1_masked_pixel_select (out_dir : String) (fresh : Nat → Nat)
    (slices : List Dataset) (result : List (List (List Int))) (outs : List OutFile)
    (hrun : apply_mask_run out_dir fresh slices result = (outs, none))
    (i r c : Nat) (hi : i < slices.length) (mv pv : Int)
    (hm : sample? (result.getD i []) r c = some mv)
    (hp : sample? ((slices.getD i default).pixel_array) r c = some pv) :
    sample? ((outs.getD i default).ds.pixel_array) r c =
      some (if 0 < mv then pv else 0) := by
  obtain ⟨h2, hcov, rfl⟩ := apply_mask_run_inv _ _ _ _ _ hrun
  rw [getD_range_map _ _ _ hi]
  exact sample?_np_where hm hp

theorem claim_C1_witness :
    ∃ outs, apply_mask_run "out" wfresh [wds0, wds1] wresult = (outs, none) ∧
      sample? ((outs.getD 0 default).ds.pixel_array) 0 1 =
        some (if 0 < (1 : Int) then 5 else 0) := by
  have hspec := apply_mask_run_spec "out" wfresh [wds0, wds1] wresult (by decide) (by decide)
  exact ⟨_, hspec,
    claim_C1_masked_pixel_select "out" wfresh [wds0, wds1] wresult _ hspec 0 0 1 (by decide)
      1 5 (by decide) (by decide)⟩

/-- C2 (amended to N at least 2): a series-reconstruction run over N slice
files whose mask covers them, with a generator whose suffixes are distinct
across the run's N+1 calls and avoid the source series identifier, produces
exactly N output files; one new series identifier is generated from the
first slice's original series identifier and carried by every output; every
output's SOP identifier is freshly generated and distinct from every
other's; and the shared new series identifier differs from the source
series identifier.  (The unamended claim fails at N = 1, see the
counterexample.) -/
theorem claim_C2_series_identity_invariants (out_dir : String) (fresh : Nat → Nat)
    (slices : List Dataset) (result : List (List (List Int)))
    (h2 : 2 ≤ slices.length) (hcov : slices.length ≤ result.length)
    (hinj : ∀ i, i ≤ slices.length → ∀ j, j ≤ slices.length → fresh i = fresh j → i = j)
    (hfresh0 : fresh 0 ∉ (slices.getD 0 default).SeriesInstanceUID) :
    ∃ outs, apply_mask_run out_dir fresh slices result = (outs, none) ∧
      outs.length = slices.length ∧
      (∀ i, i < outs.length → (outs.getD i default).ds.SeriesInstanceUID =
        generate_instance_UID ((slices.getD 0 default).SeriesInstanceUID) (fresh 0)) ∧
      (∀ i j, i < outs.length → j < outs.length → i ≠ j →
        (outs.getD i default).ds.SOPInstanceUID ≠ (outs.getD j default).ds.SOPInstanceUID) ∧
      generate_instance_UID ((slices.getD 0 default).SeriesInstanceUID) (fresh 0) ≠
        (slices.getD 0 default).SeriesInstanceUID := by
  refine ⟨_, apply_mask_run_spec out_dir fresh slices result h2 hcov, by simp, ?_, ?_, ?_⟩
  · intro i hi
    rw [List.length_map, List.length_range] at hi
    rw [getD_range_map _ _ _ hi]
    rfl
  · intro i j hi hj hij heq
    rw [List.length_map, List.length_range] at hi hj
    rw [getD_range_map _ _ _ hi, getD_range_map _ _ _ hj] at heq
    have hf := generate_instance_UID_inj_fresh heq
    have := hinj (i + 1) (by omega) (j + 1) (by omega) hf
    omega
  · exact generate_instance_UID_ne_self _ _ hfresh0

theorem claim_C2_witness :
    (2 ≤ ([wds0, wds1] : List Dataset).length) ∧
    ∃ outs, apply_mask_run "out" wfresh [wds0, wds1] wresult = (outs, none) ∧
      outs.length = ([wds0, wds1] : List Dataset).length ∧
      (∀ i, i < outs.length → (outs.getD i default).ds.SeriesInstanceUID =
        generate_instance_UID ((([wds0, wds1] : List Dataset).getD 0 default).SeriesInstanceUID)
          (wfresh 0)) ∧
      (∀ i j, i < outs.length → j < outs.length → i ≠ j →
        (outs.getD i default).ds.SOPInstanceUID ≠ (outs.getD j default).ds.SOPInstanceUID) ∧
      generate_instance_UID ((([wds0, wds1] : List Dataset).getD 0 default).SeriesInstanceUID)
          (wfresh 0) ≠
        (([wds0, wds1] : List Dataset).getD 0 default).SeriesInstanceUID :=
  ⟨by decide,
    claim_C2_series_identity_invariants "out" wfresh [wds0, wds1] wresult
      (by decide) (by decide) (by decide) (by decide)⟩

/-- C2 counterexample: at N = 1 the claim as stated fails.  A run over a
single slice file aborts with the math-domain error of the width computation
before the loop begins: no output file is produced and no identifier is
generated, so there is no successful run producing exactly one file. -/
theorem claim_C2_counterexample :
    apply_mask_run "out" wfresh [wds0] [wmask0] = ([], some RunError.pad_domain_error) ∧
    ¬ ∃ outs, apply_mask_run "out" wfresh [wds0] [wmask0] = (outs, none) := by
  refine ⟨rfl, ?_⟩
  rintro ⟨outs, h⟩
  rw [show apply_mask_run "out" wfresh [wds0] [wmask0] =
      ([], some RunError.pad_domain_error) from rfl] at h
  exact absurd (Prod.ext_iff.mp h).2 (by simp)

/-- C3 (code-bug evidence): when applymask is set and the output argument is
not an existing directory, main logs the error and exits at once: the
inference engine records zero invocations and no file is written.  However
the exit is sys.exit() with no argument, so the process exit status is 0,
not non-zero as the claim states. -/
theorem claim_C3_failfast_but_exit_zero {α : Type} (default_frame : Frame α)
    (rm : Bool) (out : String) (input_image : Image α)
    (volume_file_list : List Dataset) (infer : Image α → List (List (List Int)))
    (fresh : Nat → Nat) :
    main_run default_frame { applymask := true, removemetadata := rm, output := out }
        false input_image volume_file_list infer fresh =
      { infer_calls := 0, error_logged := true, exit_code := 0,
        series_files := [], single_output := none } := by
  simp [main_run]

/-- C4 (code-bug evidence): with a single input slice the width computation
math.trunc(math.log10(len(volume_file_list) - 1)) + 1 evaluates log10(0),
which raises ValueError instead of yielding width 1; the run aborts with no
file written, so no file lung_masked_0.dcm appears. -/
theorem claim_C4_single_slice_width_error (out_dir : String) (fresh : Nat → Nat)
    (ds : Dataset) (mask : List (List Int)) :
    pad_needed 1 = none ∧
    apply_mask_run out_dir fresh [ds] [mask] = ([], some RunError.pad_domain_error) :=
  ⟨rfl, rfl⟩

/-- C6: in series-reconstruction mode every output slice's series
description is the fixed template 'Lung segmented on series ' followed by
the slice's original (pre-rewrite) series identifier, its window center is
-700 and its window width is 700, whatever the input data. -/
theorem claim_C6_description_and_windowing (out_dir : String) (fresh : Nat → Nat)
    (slices : List Dataset) (result : List (List (List Int))) (outs : List OutFile)
    (hrun : apply_mask_run out_dir fresh slices result = (outs, none))
    (i : Nat) (hi : i < slices.length) :
    (outs.getD i default).ds.SeriesDescription =
      "Lung segmented on series " ++ uidToString ((slices.getD i default).SeriesInstanceUID) ∧
    (outs.getD i default).ds.WindowCenter = -700 ∧
    (outs.getD i default).ds.WindowWidth = 700 := by
  obtain ⟨h2, hcov, rfl⟩ := apply_mask_run_inv _ _ _ _ _ hrun
  rw [getD_range_map _ _ _ hi]
  exact ⟨rfl, rfl, rfl⟩

theorem claim_C6_witness :
    ∃ outs, apply_mask_run "out" wfresh [wds0, wds1] wresult = (outs, none) ∧
      ((outs.getD 1 default).ds.SeriesDescription =
        "Lung segmented on series " ++
          uidToString ((([wds0, wds1] : List Dataset).getD 1 default).SeriesInstanceUID) ∧
      (outs.getD 1 default).ds.WindowCenter = -700 ∧
      (outs.getD 1 default).ds.WindowWidth = 700) := by
  have hspec := apply_mask_run_spec "out" wfresh [wds0, wds1] wresult (by decide) (by decide)
  exact ⟨_, hspec,
    claim_C6_description_and_windowing "out" wfresh [wds0, wds1] wresult _ hspec 1 (by decide)⟩

/-- C10: in series-reconstruction mode the metadata-retention toggle has no
effect on the outcome (the whole trace is independent of removemetadata),
and every output slice keeps its original slice's remaining fields
unchanged, including patient identity (PatientID) and study identity
(StudyInstanceUID) and all other tags, even when metadata removal was
requested on the command line. -/
theorem claim_C10_series_ignores_removemetadata {α : Type} (default_frame : Frame α)
    (out : String) (isdir : Bool) (input_image : Image α)
    (volume_file_list : List Dataset) (infer : Image α → List (List (List Int)))
    (fresh : Nat → Nat) (rm rm' : Bool) :
    (main_run default_frame { applymask := true, removemetadata := rm, output := out } isdir
        input_image volume_file_list infer fresh =
      main_run default_frame { applymask := true, removemetadata := rm', output := out } isdir
        input_image volume_file_list infer fresh) ∧
    (∀ outs, apply_mask_run out fresh volume_file_list (infer input_image) = (outs, none) →
      (main_run default_frame { applymask := true, removemetadata := rm, output := out } true
          input_image volume_file_list infer fresh).series_files = outs ∧
      ∀ i, i < volume_file_list.length →
        (outs.getD i default).ds.PatientID = (volume_file_list.getD i default).PatientID ∧
        (outs.getD i default).ds.StudyInstanceUID =
          (volume_file_list.getD i default).StudyInstanceUID ∧
        (outs.getD i default).ds.otherTags = (volume_file_list.getD i default).otherTags) := by
  constructor
  · cases isdir <;> simp [main_run]
  · intro outs hrun
    constructor
    · simp [main_run, hrun]
    · intro i hi
      obtain ⟨h2, hcov, rfl⟩ := apply_mask_run_inv _ _ _ _ _ hrun
      rw [getD_range_map _ _ _ hi]
      exact ⟨rfl, rfl, rfl⟩

theorem claim_C10_witness :
    ∃ outs, apply_mask_run "out" wfresh [wds0, wds1] ((fun _ => wresult) wimage) = (outs, none) ∧
      (main_run wframe0 { applymask := true, removemetadata := true, output := "out" } true
          wimage [wds0, wds1] (fun _ => wresult) wfresh).series_files = outs ∧
      (outs.getD 0 default).ds.PatientID = (([wds0, wds1] : List Dataset).getD 0 default).PatientID := by
  have hspec := apply_mask_run_spec "out" wfresh [wds0, wds1] wresult (by decide) (by decide)
  have h := claim_C10_series_ignores_removemetadata wframe0 "out" true wimage [wds0, wds1]
    (fun _ => wresult) wfresh true false
  exact ⟨_, hspec, (h.2 _ hspec).1, ((h.2 _ hspec).2 0 (by decide)).1⟩

/-! Metadata dictionary lemmas for the single-volume branch. -/

lemma mem_keys_setKV (l : List (String × String)) (k v key : String) :
    key ∈ (setKV l k v).map Prod.fst ↔ key ∈ l.map Prod.fst ∨ key = k := by
  induction l with
  | nil => simp [setKV]
  | cons kv0 rest ih =>
    obtain ⟨k0, v0⟩ := kv0
    by_cases h : k0 = k
    · subst h
      simp [setKV]
      tauto
    · simp [setKV, h, ih]
      tauto

lemma find?_setKV_self (l : List (String × String)) (k v : String) :
    (setKV l k v).find? (fun kv => kv.1 = k) = some (k, v) := by
  induction l with
  | nil => simp [setKV]
  | cons kv0 rest ih =>
    obtain ⟨k0, v0⟩ := kv0
    by_cases h : k0 = k
    · subst h
      simp [setKV]
    · simp [setKV, h, ih]

lemma find?_setKV_ne (l : List (String × String)) (k v key : String) (h : key ≠ k) :
    (setKV l k v).find? (fun kv => kv.1 = key) = l.find? (fun kv => kv.1 = key) := by
  induction l with
  | nil => simp [setKV, Ne.symm h]
  | cons kv0 rest ih =>
    obtain ⟨k0, v0⟩ := kv0
    by_cases h0 : k0 = k
    · subst h0
      by_cases hk : k0 = key
      · exact absurd hk.symm h
      · simp [setKV, hk]
    · by_cases hk : k0 = key
      · subst hk
        simp [setKV, h0]
      · simp [setKV, h0, hk, ih]

lemma mem_keys_SetMetaData {α : Type} (img : Image α) (k v key : String) :
    key ∈ GetMetaDataKeys (SetMetaData img k v) ↔ key ∈ GetMetaDataKeys img ∨ key = k :=
  mem_keys_setKV img.meta k v key

lemma GetMetaData_SetMetaData_self {α : Type} (img : Image α) (k v : String) :
    GetMetaData (SetMetaData img k v) k = some v := by
  unfold GetMetaData SetMetaData
  rw [find?_setKV_self]
  rfl

lemma GetMetaData_SetMetaData_ne {α : Type} (img : Image α) (k v key : String)
    (h : key ≠ k) :
    GetMetaData (SetMetaData img k v) key = GetMetaData img key := by
  unfold GetMetaData SetMetaData
  rw [find?_setKV_ne _ _ _ _ h]

lemma frame_SetMetaData {α : Type} (img : Image α) (k v : String) :
    (SetMetaData img k v).frame = img.frame := rfl

lemma frame_copy_tags_fold {α : Type} (input_image : Image α) (keys : List String) :
    ∀ acc : Image α, (copy_tags_fold input_image keys acc).frame = acc.frame := by
  induction keys with
  | nil => intro acc; rfl
  | cons k ks ih =>
    intro acc
    show (copy_tags_fold input_image ks _).frame = _
    rw [ih]
    by_cases h : k ∈ get_DICOM_tags_to_keep <;> simp [h, frame_SetMetaData]

lemma mem_keys_copy_tags_fold {α : Type} (input_image : Image α) (keys : List String)
    (key : String) :
    ∀ acc : Image α,
      (key ∈ GetMetaDataKeys (copy_tags_fold input_image keys acc) ↔
        key ∈ GetMetaDataKeys acc ∨ (key ∈ keys ∧ key ∈ get_DICOM_tags_to_keep)) := by
  induction keys with
  | nil => intro acc; simp [copy_tags_fold]
  | cons k ks ih =>
    intro acc
    show key ∈ GetMetaDataKeys (copy_tags_fold input_image ks _) ↔ _
    rw [ih]
    by_cases h : k ∈ get_DICOM_tags_to_keep
    · simp only [h, if_true, mem_keys_SetMetaData, List.mem_cons]
      constructor
      · rintro ((hk | rfl) | ⟨hks, hall⟩)
        · exact Or.inl hk
        · exact Or.inr ⟨Or.inl rfl, h⟩
        · exact Or.inr ⟨Or.inr hks, hall⟩
      · rintro (hk | ⟨(rfl | hks), hall⟩)
        · exact Or.inl (Or.inl hk)
        · exact Or.inl (Or.inr rfl)
        · exact Or.inr ⟨hks, hall⟩
    · simp only [h, if_false, List.mem_cons]
      constructor
      · rintro (hk | ⟨hks, hall⟩)
        · exact Or.inl hk
        · exact Or.inr ⟨Or.inr hks, hall⟩
      · rintro (hk | ⟨(rfl | hks), hall⟩)
        · exact Or.inl hk
        · exact absurd hall h
        · exact Or.inr ⟨hks, hall⟩

lemma GetMetaData_copy_tags_fold_not_mem {α : Type} (input_image : Image α)
    (keys : List String) (key : String) (h : key ∉ keys) :
    ∀ acc : Image α,
      GetMetaData (copy_tags_fold input_image keys acc) key = GetMetaData acc key := by
  induction keys with
  | nil => intro acc; rfl
  | cons k ks ih =>
    intro acc
    have hk : key ≠ k := fun heq => h (heq ▸ List.mem_cons_self k ks)
    have hks : key ∉ ks := fun hin => h (List.mem_cons_of_mem _ hin)
    show GetMetaData (copy_tags_fold input_image ks _) key = _
    rw [ih hks]
    by_cases hin : k ∈ get_DICOM_tags_to_keep
    · simp [hin, GetMetaData_SetMetaData_ne _ _ _ _ hk]
    · simp [hin]

lemma GetMetaData_copy_tags_fold_mem {α : Type} (input_image : Image α)
    (keys : List String) (key : String) (hall : key ∈ get_DICOM_tags_to_keep)
    (hk : key ∈ keys) :
    ∀ acc : Image α,
      GetMetaData (copy_tags_fold input_image keys acc) key =
        some ((GetMetaData input_image key).getD "") := by
  induction keys with
  | nil => cases hk
  | cons k ks ih =>
    intro acc
    show GetMetaData (copy_tags_fold input_image ks _) key = _
    by_cases hks : key ∈ ks
    · exact ih hks _
    · have : key = k := by
        cases List.mem_cons.1 hk with
        | inl h => exact h
        | inr h => exact absurd h hks
      subst this
      rw [GetMetaData_copy_tags_fold_not_mem input_image ks key hks]
      simp [hall, GetMetaData_SetMetaData_self]

lemma find?_fst_isSome (l : List (String × String)) (key : String)
    (h : key ∈ l.map Prod.fst) :
    ∃ v, (l.find? (fun kv => kv.1 = key)).map Prod.snd = some v := by
  induction l with
  | nil => simp at h
  | cons kv rest ih =>
    obtain ⟨k0, v0⟩ := kv
    by_cases hk : k0 = key
    · subst hk
      exact ⟨v0, by simp⟩
    · have h' : key ∈ rest.map Prod.fst := by
        simp only [List.map_cons, List.mem_cons] at h
        rcases h with h | h
        · exact absurd h.symm hk
        · exact h
      obtain ⟨v, hv⟩ := ih h'
      refine ⟨v, ?_⟩
      rw [List.find?_cons_of_neg]
      · exact hv
      · simp [hk]

lemma GetMetaData_isSome_of_mem_keys {α : Type} (img : Image α) (key : String)
    (h : key ∈ GetMetaDataKeys img) : ∃ v, GetMetaData img key = some v :=
  find?_fst_isSome img.meta key h

/-! Claim theorems for the single-volume branch. -/

/-- C8: in single-volume mode the output volume's spatial frame (origin,
spacing, direction) equals the source volume's spatial frame exactly, for
every value of keepmetadata. -/
theorem claim_C8_spatial_frame_copied {α : Type} (default_frame : Frame α)
    (input_image : Image α) (result : List (List (List Int))) (keepmetadata : Bool) :
    (single_volume_out default_frame input_image result keepmetadata).frame.origin =
      input_image.frame.origin ∧
    (single_volume_out default_frame input_image result keepmetadata).frame.spacing =
      input_image.frame.spacing ∧
    (single_volume_out default_frame input_image result keepmetadata).frame.direction =
      input_image.frame.direction := by
  have hfr : (single_volume_out default_frame input_image result keepmetadata).frame =
      input_image.frame := by
    cases keepmetadata with
    | false => rfl
    | true =>
      show (SetMetaData (SetMetaData (SetMetaData (copy_tags_fold _ _ _) _ _) _ _) _ _).frame = _
      rw [frame_SetMetaData, frame_SetMetaData, frame_SetMetaData, frame_copy_tags_fold]
      rfl
  exact ⟨by rw [hfr], by rw [hfr], by rw [hfr]⟩

/-- C9: in single-volume mode with keepmetadata false, the output volume
carries no metadata at all: no key is copied from the source and none of
the display tags is set. -/
theorem claim_C9_no_metadata_when_removed {α : Type} (default_frame : Frame α)
    (input_image : Image α) (result : List (List (List Int))) :
    (single_volume_out default_frame input_image result false).meta = [] ∧
    GetMetaDataKeys (single_volume_out default_frame input_image result false) = [] :=
  ⟨rfl, rfl⟩

/-- C7: in single-volume mode with keepmetadata true, the output's metadata
key set is exactly the intersection of the source's keys with the fixed
allow-list, plus the fixed display tags 0008|103e (a series description
identifying the tool), 0028|1050 and 0028|1051 (fixed window center/width);
every allow-listed key present on the source keeps its source value
verbatim. -/
theorem claim_C7_kept_metadata_allowlist {α : Type} (default_frame : Frame α)
    (input_image : Image α) (result : List (List (List Int))) :
    (∀ key, key ∈ GetMetaDataKeys (single_volume_out default_frame input_image result true) ↔
      ((key ∈ GetMetaDataKeys input_image ∧ key ∈ get_DICOM_tags_to_keep) ∨
        key = "0008|103e" ∨ key = "0028|1050" ∨ key = "0028|1051")) ∧
    (∀ key, key ∈ get_DICOM_tags_to_keep → key ∈ GetMetaDataKeys input_image →
      GetMetaData (single_volume_out default_frame input_image result true) key =
        GetMetaData input_image key) ∧
    GetMetaData (single_volume_out default_frame input_image result true) "0008|103e" =
      some "Created with lungmask" ∧
    GetMetaData (single_volume_out default_frame input_image result true) "0028|1050" =
      some "1" ∧
    GetMetaData (single_volume_out default_frame input_image result true) "0028|1051" =
      some "2" := by
  have hout : single_volume_out default_frame input_image result true =
      SetMetaData
        (SetMetaData
          (SetMetaData
            (copy_tags_fold input_image (GetMetaDataKeys input_image)
              (CopyInformation (GetImageFromArray default_frame result) input_image))
            "0008|103e" "Created with lungmask")
          "0028|1050" "1")
        "0028|1051" "2" := rfl
  refine ⟨?_, ?_, ?_, ?_, ?_⟩
  · intro key
    rw [hout, mem_keys_SetMetaData, mem_keys_SetMetaData, mem_keys_SetMetaData,
      mem_keys_copy_tags_fold]
    have hbase : GetMetaDataKeys
        (CopyInformation (GetImageFromArray default_frame result) input_image) = [] := rfl
    rw [hbase]
    simp only [List.not_mem_nil, false_or]
    tauto
  · intro key hall hk
    obtain ⟨v, hv⟩ := GetMetaData_isSome_of_mem_keys input_image key hk
    have hne : key ≠ "0008|103e" ∧ key ≠ "0028|1050" ∧ key ≠ "0028|1051" := by
      rcases (by simpa [get_DICOM_tags_to_keep] using hall :
        key = "0010|0010" ∨ key = "0010|0020" ∨ key = "0020|000d" ∨
        key = "0008|0020" ∨ key = "0008|0060") with rfl | rfl | rfl | rfl | rfl <;>
        exact ⟨by decide, by decide, by decide⟩
    rw [hout, GetMetaData_SetMetaData_ne _ _ _ _ hne.2.2,
      GetMetaData_SetMetaData_ne _ _ _ _ hne.2.1,
      GetMetaData_SetMetaData_ne _ _ _ _ hne.1,
      GetMetaData_copy_tags_fold_mem input_image _ key hall hk, hv]
    rfl
  · rw [hout, GetMetaData_SetMetaData_ne _ _ _ _ (by decide),
      GetMetaData_SetMetaData_ne _ _ _ _ (by decide), GetMetaData_SetMetaData_self]
  · rw [hout, GetMetaData_SetMetaData_ne _ _ _ _ (by decide), GetMetaData_SetMetaData_self]
  · rw [hout, GetMetaData_SetMetaData_self]

theorem claim_C7_witness :
    ("0010|0010" ∈ get_DICOM_tags_to_keep ∧ "0010|0010" ∈ GetMetaDataKeys wimage) ∧
    GetMetaData (single_volume_out wframe0 wimage [] true) "0010|0010" =
      GetMetaData wimage "0010|0010" :=
  ⟨⟨by decide, by decide⟩,
    (claim_C7_kept_metadata_allowlist wframe0 wimage []).2.1 "0010|0010" (by decide) (by decide)⟩

/-! Decimal-numeral lemmas for the filename claims. -/

/-- Value denoted by a big-endian list of decimal digits. -/
def valD (l : List Nat) : Nat :=
  l.foldl (fun a d => 10 * a + d) 0

lemma foldl_valD (l : List Nat) : ∀ a : Nat,
    l.foldl (fun x d => 10 * x + d) a = a * 10 ^ l.length + valD l := by
  induction l with
  | nil => intro a; simp [valD]
  | cons d t ih =>
    intro a
    have hv : valD (d :: t) = d * 10 ^ t.length + valD t := by
      show List.foldl _ (10 * 0 + d) t = _
      rw [ih]
      norm_num
    show List.foldl _ (10 * a + d) t = _
    rw [ih, hv, List.length_cons]
    ring

lemma valD_cons (d : Nat) (t : List Nat) :
    valD (d :: t) = d * 10 ^ t.length + valD t := by
  show List.foldl _ (10 * 0 + d) t = _
  rw [foldl_valD]
  norm_num

lemma valD_lt_pow (l : List Nat) (h : ∀ d ∈ l, d < 10) :
    valD l < 10 ^ l.length := by
  induction l with
  | nil => simp [valD]
  | cons d t ih =>
    rw [valD_cons, List.length_cons]
    have hd : d < 10 := h d (List.mem_cons_self _ _)
    have ht := ih (fun x hx => h x (List.mem_cons_of_mem _ hx))
    calc d * 10 ^ t.length + valD t < d * 10 ^ t.length + 10 ^ t.length := by omega
      _ = (d + 1) * 10 ^ t.length := by ring
      _ ≤ 10 * 10 ^ t.length := Nat.mul_le_mul_right _ (by omega)
      _ = 10 ^ (t.length + 1) := by ring

lemma valD_replicate_zero (z : Nat) (l : List Nat) :
    valD (List.replicate z 0 ++ l) = valD l := by
  induction z with
  | zero => simp
  | succ n ih =>
    rw [List.replicate_succ, List.cons_append]
    exact ih

lemma valD_reverse_eq_ofDigits (l : List Nat) :
    valD l.reverse = Nat.ofDigits 10 l := by
  induction l with
  | nil => simp [valD, Nat.ofDigits_nil]
  | cons d t ih =>
    rw [List.reverse_cons]
    show List.foldl _ 0 (t.reverse ++ [d]) = _
    rw [List.foldl_append, Nat.ofDigits_cons, ← ih]
    show 10 * valD t.reverse + d = _
    ring

lemma valD_natDigits (n : Nat) : valD (natDigits n) = n := by
  unfold natDigits
  by_cases h : n = 0
  · subst h; rfl
  · rw [if_neg h, valD_reverse_eq_ofDigits, Nat.ofDigits_digits]

lemma natDigits_lt_base (n : Nat) : ∀ d ∈ natDigits n, d < 10 := by
  intro d hd
  unfold natDigits at hd
  by_cases h : n = 0
  · subst h; simp at hd; omega
  · rw [if_neg h, List.mem_reverse] at hd
    exact Nat.digits_lt_base (by norm_num) hd

lemma natDigits_length (n : Nat) : (natDigits n).length = Nat.log 10 n + 1 := by
  unfold natDigits
  by_cases h : n = 0
  · subst h; simp
  · rw [if_neg h, List.length_reverse, Nat.digits_len 10 n (by norm_num) h]

lemma natDigitChar_lt_natDigitChar :
    ∀ d1, d1 < 10 → ∀ d2, d2 < 10 → d1 < d2 → natDigitChar d1 < natDigitChar d2 := by
  decide

lemma lex_append_of_valD_lt :
    ∀ (ds : List Nat) (es : List Nat) (u v : List Char), ds.length = es.length →
      (∀ d ∈ ds, d < 10) → (∀ d ∈ es, d < 10) → valD ds < valD es →
      List.Lex (fun c1 c2 : Char => c1 < c2)
        (ds.map natDigitChar ++ u) (es.map natDigitChar ++ v) := by
  intro ds
  induction ds with
  | nil =>
    intro es u v hlen _ _ hlt
    have hes : es = [] := List.length_eq_zero.mp hlen.symm
    subst hes
    simp [valD] at hlt
  | cons d ds ih =>
    intro es u v hlen hd he hlt
    obtain ⟨e, es', rfl⟩ : ∃ e es', es = e :: es' := by
      cases es with
      | nil => simp at hlen
      | cons e es' => exact ⟨e, es', rfl⟩
    have hlen' : ds.length = es'.length := by simpa using hlen
    have hd0 : d < 10 := hd d (List.mem_cons_self _ _)
    have he0 : e < 10 := he e (List.mem_cons_self _ _)
    rw [List.map_cons, List.map_cons, List.cons_append, List.cons_append]
    rcases lt_trichotomy d e with hde | hde | hde
    · exact List.Lex.rel (natDigitChar_lt_natDigitChar d hd0 e he0 hde)
    · subst hde
      apply List.Lex.cons
      apply ih es' u v hlen' (fun x hx => hd x (List.mem_cons_of_mem _ hx))
        (fun x hx => he x (List.mem_cons_of_mem _ hx))
      rw [valD_cons, valD_cons, hlen'] at hlt
      omega
    · exfalso
      rw [valD_cons, valD_cons, hlen'] at hlt
      have hb := valD_lt_pow es' (fun x hx => he x (List.mem_cons_of_mem _ hx))
      have h1 : (e + 1) * 10 ^ es'.length ≤ d * 10 ^ es'.length :=
        Nat.mul_le_mul_right _ (by omega)
      have h2 : (e + 1) * 10 ^ es'.length = e * 10 ^ es'.length + 10 ^ es'.length := by ring
      omega

lemma String_mk_toList (l : List Char) : (String.mk l).toList = l := rfl

lemma String_toList_append (s t : String) : (s ++ t).toList = s.toList ++ t.toList :=
  String.data_append s t

lemma zfill_natChars_eq_map (w n : Nat) :
    zfill w (natChars n) =
      (List.replicate (w - (natDigits n).length) 0 ++ natDigits n).map natDigitChar := by
  unfold zfill natChars
  rw [List.map_append, List.map_replicate, List.length_map,
    show ('0' : Char) = natDigitChar 0 from by decide]

lemma slice_filename_lt (w i j : Nat) (hij : i < j) (hj : Nat.log 10 j + 1 ≤ w)
    (p : String) :
    p ++ slice_filename w i < p ++ slice_filename w j := by
  have hmono : Nat.log 10 i ≤ Nat.log 10 j := Nat.log_mono_right (Nat.le_of_lt hij)
  have hi' : Nat.log 10 i + 1 ≤ w := by omega
  rw [String.lt_iff_toList_lt]
  unfold slice_filename
  show List.Lex (fun c1 c2 : Char => c1 < c2) _ _
  simp only [String_toList_append, String_mk_toList, List.append_assoc]
  apply List.Lex.append_left
  apply List.Lex.append_left
  rw [zfill_natChars_eq_map, zfill_natChars_eq_map]
  apply lex_append_of_valD_lt
  · rw [List.length_append, List.length_replicate, List.length_append,
      List.length_replicate, natDigits_length, natDigits_length]
    omega
  · intro x hx
    rcases List.mem_append.mp hx with hx | hx
    · have := List.eq_of_mem_replicate hx; omega
    · exact natDigits_lt_base i x hx
  · intro x hx
    rcases List.mem_append.mp hx with hx | hx
    · have := List.eq_of_mem_replicate hx; omega
    · exact natDigits_lt_base j x hx
  · rw [valD_replicate_zero, valD_replicate_zero, valD_natDigits, valD_natDigits]
    exact hij

/-- C5: in a series-reconstruction run with N slices (N at least 2, which is
what a successful run implies), the file written for zero-based slice index
i is named lung_masked_<i>.dcm in the output directory, with i rendered by
str(i).zfill(w) at exactly width w = floor(log10(N-1)) + 1; consequently the
filenames of any two slices compare in lexicographic order exactly as their
indices compare numerically. -/
theorem claim_C5_filename_padding_and_order (out_dir : String) (fresh : Nat → Nat)
    (slices : List Dataset) (result : List (List (List Int))) (outs : List OutFile)
    (hrun : apply_mask_run out_dir fresh slices result = (outs, none)) :
    2 ≤ slices.length ∧
    outs.length = slices.length ∧
    (∀ i, i < slices.length → (outs.getD i default).name =
      out_dir ++ "/" ++ slice_filename (Nat.log 10 (slices.length - 1) + 1) i) ∧
    (∀ i, i < slices.length →
      (zfill (Nat.log 10 (slices.length - 1) + 1) (natChars i)).length =
        Nat.log 10 (slices.length - 1) + 1) ∧
    (∀ i j, i < j → j < slices.length →
      (outs.getD i default).name < (outs.getD j default).name) := by
  obtain ⟨h2, hcov, rfl⟩ := apply_mask_run_inv _ _ _ _ _ hrun
  refine ⟨h2, by simp, ?_, ?_, ?_⟩
  · intro i hi
    rw [getD_range_map _ _ _ hi]
    rfl
  · intro i hi
    have hlen : (natChars i).length = Nat.log 10 i + 1 := by
      unfold natChars
      rw [List.length_map, natDigits_length]
    have hmono : Nat.log 10 i ≤ Nat.log 10 (slices.length - 1) :=
      Nat.log_mono_right (by omega)
    unfold zfill
    rw [List.length_append, List.length_replicate, hlen]
    omega
  · intro i j hij hj
    rw [getD_range_map _ _ _ (lt_trans hij hj), getD_range_map _ _ _ hj]
    have hjw : Nat.log 10 j + 1 ≤ Nat.log 10 (slices.length - 1) + 1 := by
      have := @Nat.log_mono_right 10 j (slices.length - 1) (by omega)
      omega
    exact slice_filename_lt _ i j hij hjw (out_dir ++ "/")

theorem claim_C5_witness :
    ∃ outs, apply_mask_run "out" wfresh [wds0, wds1] wresult = (outs, none) ∧
      (∀ i, i < ([wds0, wds1] : List Dataset).length → (outs.getD i default).name =
        "out" ++ "/" ++
          slice_filename (Nat.log 10 (([wds0, wds1] : List Dataset).length - 1) + 1) i) ∧
      (∀ i j, i < j → j < ([wds0, wds1] : List Dataset).length →
        (outs.getD i default).name < (outs.getD j default).name) := by
  have hspec := apply_mask_run_spec "out" wfresh [wds0, wds1] wresult (by decide) (by decide)
  have h := claim_C5_filename_padding_and_order "out" wfresh [wds0, wds1] wresult _ hspec
  exact ⟨_, hspec, h.2.2.1, h.2.2.2.2⟩

end Lungmask
